import Mathlib

/-!
Shallow embedding of the chess-bot repository's dedup-and-synchronization
core: the starboard reaction handler (src/events/reaction_add.rs,
src/create_starboard_message.rs) and the RSS feed watermark tracker
(src/rss_announcements.rs, src/main.rs).  Machine integers of the source
(u32/u64 counts, i64 millisecond timestamps) are modelled as Nat / Int;
fallible or panicking source code returns Option / an explicit result
variant.
-/

namespace ChessBot

/-! ## Data model: messages and reactions (twilight_model shapes used by the source) -/

/-- `twilight_model::channel::message::ReactionType`: a unicode emoji or a
custom emoji with id and optional name. -/
inductive ReactionTypeM where
  | unicode (name : String)
  | custom (id : Nat) (name : Option String)
  deriving DecidableEq, Repr

/-- One `(emoji, count)` pair on a message. -/
structure ReactionM where
  emoji : ReactionTypeM
  count : Nat
  deriving DecidableEq, Repr

/-- The message author fields read by `create_starboard_message`:
`author.id`, `author.name`, `author.avatar` (hash plus its
`is_animated()` flag), `author.discriminator`. -/
structure AuthorM where
  id : Nat
  name : String
  avatar : Option (String × Bool)
  discriminator : Nat
  deriving DecidableEq, Repr

/-- An attachment's `url` and `proxy_url`. -/
structure AttachmentM where
  url : String
  proxyUrl : String
  deriving DecidableEq, Repr

/-- The fetched `twilight_model::channel::Message` fields the handler reads. -/
structure MessageM where
  id : Nat
  channelId : Nat
  guildId : Option Nat
  author : AuthorM
  content : String
  timestamp : Int
  reactions : List ReactionM
  attachments : List AttachmentM
  deriving DecidableEq, Repr

/-- Embed author (name plus optional icon url). -/
structure EmbedAuthorM where
  name : String
  iconUrl : Option String
  deriving DecidableEq, Repr

/-- One embed field (`inline`, `name`, `value`). -/
structure EmbedFieldM where
  isInline : Bool
  name : String
  value : String
  deriving DecidableEq, Repr

/-- The embed fields actually populated by the two renderers of the source
(starboard posts and RSS announcement posts). -/
structure EmbedM where
  author : Option EmbedAuthorM
  color : Option Nat
  description : Option String
  fields : List EmbedFieldM
  timestamp : Option Int
  image : Option String
  title : Option String
  url : Option String
  kind : String
  deriving DecidableEq, Repr

/-! ## create_starboard_message (src/create_starboard_message.rs) -/

/-- `StarboardMessage { content, embeds }`. -/
structure StarboardMessage where
  content : String
  embeds : List EmbedM
  deriving DecidableEq, Repr

/-- The `reduce` over `message.reactions`: keep the current maximum, replace
it only when a strictly larger count appears (first maximum wins on ties). -/
def maxReactionOf (r : ReactionM) (rs : List ReactionM) : ReactionM :=
  rs.foldl (fun currentMax reaction =>
    if reaction.count > currentMax.count then reaction else currentMax) r

/-- Rendering of the winning emoji: a unicode emoji prints its name, a custom
emoji prints `<:{name}:{id}>` with a missing name defaulting to empty. -/
def renderEmoji : ReactionTypeM → String
  | .unicode name => name
  | .custom id name => "<:" ++ name.getD "" ++ ":" ++ toString id ++ ">"

/-- Avatar icon url: custom avatar hash when present (gif when animated,
webp otherwise), else the default avatar derived from `discriminator % 5`. -/
def avatarIconUrl (author : AuthorM) : String :=
  match author.avatar with
  | some (hash, animated) =>
      "https://cdn.discordapp.com/avatars/" ++ toString author.id ++ "/" ++ hash
        ++ "." ++ (if animated then "gif" else "webp")
  | none =>
      "https://cdn.discordapp.com/embed/avatars/"
        ++ toString (author.discriminator % 5) ++ ".png"

/-- The "Message Link" field value, with `@me` in place of a missing guild id. -/
def messageLinkValue (message : MessageM) : String :=
  "[Click to jump to message](https://discord.com/channels/"
    ++ (match message.guildId with
        | some guildId => toString guildId
        | none => "@me")
    ++ "/" ++ toString message.channelId ++ "/" ++ toString message.id ++ ")"

/-- `create_starboard_message`: reduces the reaction list to its maximum and
renders content plus one embed.  The source calls `.expect(..)` on the reduce,
so a message with no reactions panics: modelled as `none`. -/
def createStarboardMessage (message : MessageM) : Option StarboardMessage :=
  match message.reactions with
  | [] => none
  | r :: rs =>
    let maxReactions := maxReactionOf r rs
    let content :=
      toString maxReactions.count ++ " " ++ renderEmoji maxReactions.emoji
        ++ " in <#" ++ toString message.channelId ++ ">"
    let embeds : List EmbedM :=
      [{ author := some { name := message.author.name
                          iconUrl := some (avatarIconUrl message.author) }
         color := some 15844367
         description := some message.content
         fields := [{ isInline := false
                      name := "Message Link"
                      value := messageLinkValue message }]
         timestamp := some message.timestamp
         image := (message.attachments.head?).map (fun a => a.url)
         title := none
         url := none
         kind := "rich" }]
    some { content := content, embeds := embeds }

/-! ## Starboard ledger (sqlite table `starboard(message_id, starboard_id)`) -/

/-- The starboard table as a list of `(message_id, starboard_id)` rows. -/
abbrev Ledger := List (Nat × Nat)

/-- `SELECT starboard_id FROM starboard WHERE message_id = ?`. -/
def lookupStarboard : Ledger → Nat → Option Nat
  | [], _ => none
  | (m, s) :: rest, q => if m = q then some s else lookupStarboard rest q

/-- `INSERT INTO starboard (starboard_id, message_id) VALUES (?, ?)`:
appends one row. -/
def insertStarboard (db : Ledger) (messageId starboardId : Nat) : Ledger :=
  db ++ [(messageId, starboardId)]

/-- The keys of the starboard table are pairwise distinct (primary key). -/
def keysNodup (db : Ledger) : Prop := (db.map Prod.fst).Nodup

instance (db : Ledger) : Decidable (keysNodup db) := by
  unfold keysNodup; infer_instance

/-! ## reaction_add (src/events/reaction_add.rs) -/

/-- The configuration fields `reaction_add` reads
(src/config.rs: `reaction_requirement : u32`, `starboard_channel_id`,
`server_id : Option<Id<GuildMarker>>`). -/
structure ApplicationConfig where
  reactionRequirement : Nat
  starboardChannelId : Nat
  serverId : Option Nat
  deriving DecidableEq, Repr

/-- The `ReactionAdd` gateway payload fields the handler reads. -/
structure ReactionAddEvent where
  messageId : Nat
  channelId : Nat
  guildId : Option Nat
  deriving DecidableEq, Repr

/-- `config.server_id.map(|id| Some(id) == added.guild_id).unwrap_or(true)`. -/
def guildAccepted (config : ApplicationConfig) (added : ReactionAddEvent) : Bool :=
  match config.serverId with
  | some id => added.guildId == some id
  | none => true

/-- Side-effecting operations the handler issues, in order: an HTTP update of
an existing starboard post, an HTTP create of a new starboard post (returning
`newId`), and the ledger INSERT. -/
inductive Action where
  | apiUpdate (channelId : Nat) (starboardMessageId : Nat) (message : StarboardMessage)
  | apiCreate (channelId : Nat) (message : StarboardMessage) (newId : Nat)
  | dbInsert (starboardId : Nat) (messageId : Nat)
  deriving DecidableEq, Repr

/-- Terminal outcome of one handler run.  `panicked` models the
`create_starboard_message` expect-panic, `insertConflict` a primary-key
rejection of the ledger INSERT. -/
inductive Outcome where
  | ignored
  | updated
  | belowThreshold
  | created
  | panicked
  | insertConflict
  deriving DecidableEq, Repr

/-- Result of one sequential handler run: the ordered trace of side effects,
the ledger afterwards, and the terminal outcome. -/
structure ReactionAddResult where
  trace : List Action
  ledger : Ledger
  outcome : Outcome
  deriving DecidableEq, Repr

/-- `(message.reactions.iter().map(|r| r.count)).max().unwrap_or_default()`. -/
def maxReactionCount (message : MessageM) : Nat :=
  (message.reactions.map (fun r => r.count)).foldl max 0

/-- `reaction_add`, sequentially: guild filter, ledger lookup, fresh message
fetch (the fetched `message` is an input), then update / below-threshold /
create-and-insert exactly as in the source. -/
def reaction_add (config : ApplicationConfig) (added : ReactionAddEvent)
    (message : MessageM) (newPostId : Nat) (db : Ledger) : ReactionAddResult :=
  if guildAccepted config added then
    let starboardId := lookupStarboard db added.messageId
    let maxReactions := maxReactionCount message
    match starboardId with
    | some starboardMessageId =>
      match createStarboardMessage message with
      | none => { trace := [], ledger := db, outcome := .panicked }
      | some newMessage =>
        { trace := [.apiUpdate config.starboardChannelId starboardMessageId newMessage]
          ledger := db
          outcome := .updated }
    | none =>
      if maxReactions < config.reactionRequirement then
        { trace := [], ledger := db, outcome := .belowThreshold }
      else
        match createStarboardMessage message with
        | none => { trace := [], ledger := db, outcome := .panicked }
        | some starboardMessage =>
          { trace := [.apiCreate config.starboardChannelId starboardMessage newPostId,
                      .dbInsert newPostId added.messageId]
            ledger := insertStarboard db added.messageId newPostId
            outcome := .created }
  else
    { trace := [], ledger := db, outcome := .ignored }

/-! ## RSS announcements (src/rss_announcements.rs) -/

/-- `RssError` variants of the file the tracker lives in
(src/error via rss_announcements.rs): fetch, read, database, post. -/
inductive RssError where
  | fetch
  | read
  | database
  | post
  deriving DecidableEq, Repr

/-- `feed_rs::model::Content`: the `body` read by the renderer. -/
structure FeedContentM where
  body : Option String
  deriving DecidableEq, Repr

/-- One `feed_rs::model::Entry` as read by the tracker: id, optional title,
author names, optional content, links and the optional `updated` timestamp
(milliseconds-scale instant, modelled as `Int`). -/
structure FeedEntryM where
  id : String
  title : Option String
  authors : List String
  content : Option FeedContentM
  links : List String
  updated : Option Int
  deriving DecidableEq, Repr

/-- A parsed `feed_rs::model::Feed`: id, optional title, the feed-level
`updated` timestamp and the entry list. -/
structure FeedM where
  id : String
  title : Option String
  updated : Option Int
  entries : List FeedEntryM
  deriving DecidableEq, Repr

/-- The `announcement_feed(id, last_updated_time)` table as rows. -/
abbrev FeedDb := List (String × Int)

/-- `SELECT last_updated_time FROM announcement_feed WHERE id = ?`. -/
def lookupFeed : FeedDb → String → Option Int
  | [], _ => none
  | (i, v) :: rest, q => if i = q then some v else lookupFeed rest q

/-- `INSERT INTO announcement_feed (id, last_updated_time) VALUES (?, ?)`. -/
def insertFeed (db : FeedDb) (id : String) (time : Int) : FeedDb :=
  db ++ [(id, time)]

/-- `UPDATE announcement_feed SET last_updated_time = ? WHERE id = ?`. -/
def updateFeed (db : FeedDb) (id : String) (time : Int) : FeedDb :=
  db.map (fun row => if row.1 = id then (row.1, time) else row)

/-! ### Body filtering and truncation (lines 194-204 of rss_announcements.rs) -/

/-- `str::replace`: replace every non-overlapping occurrence of `pat`
left-to-right.  The fuel argument (initialised to the list length, consumed
one char per step) makes the recursion structural; an empty pattern never
occurs at the call sites. -/
def replaceAllAux (pat repl : List Char) : Nat → List Char → List Char
  | _, [] => []
  | 0, l => l
  | fuel + 1, c :: cs =>
    if pat ≠ [] ∧ pat.isPrefixOf (c :: cs) then
      repl ++ replaceAllAux pat repl fuel ((c :: cs).drop pat.length)
    else
      c :: replaceAllAux pat repl fuel cs

/-- `str::replace` over a char list. -/
def replaceAll (pat repl l : List Char) : List Char :=
  replaceAllAux pat repl l.length l

/-- The pattern `&nbsp;`. -/
def nbspPat : List Char := "&nbsp;".data

/-- The pattern `<p>`. -/
def pOpenPat : List Char := "<p>".data

/-- The pattern `</p>`. -/
def pClosePat : List Char := "</p>".data

/-- A single newline. -/
def newlineRepl : List Char := "\n".data

/-- `body.replace("&nbsp;", "").replace("<p>", "").replace("</p>", "\n")`. -/
def filteredBody (body : String) : List Char :=
  replaceAll pClosePat newlineRepl
    (replaceAll pOpenPat [] (replaceAll nbspPat [] body.data))

/-- Total UTF-8 byte length of a char list. -/
def utf8Len (l : List Char) : Nat := (l.map Char.utf8Size).sum

/-- `String::truncate(n)` on the byte budget `n`: keeps the whole string when
it fits, cuts at the budget when the budget lands on a character boundary,
and panics (`none`) when the budget falls strictly inside a character's
UTF-8 encoding. -/
def truncAux : Nat → List Char → Option (List Char)
  | _, [] => some []
  | 0, _ :: _ => some []
  | n + 1, c :: cs =>
    if c.utf8Size ≤ n + 1 then
      (truncAux (n + 1 - c.utf8Size) cs).map (fun l => c :: l)
    else
      none

/-- The full body transformation: the three replaces, then
`filtered_body.truncate(4096)`.  `none` models the truncate panic. -/
def transformBody (body : String) : Option String :=
  (truncAux 4096 (filteredBody body)).map (fun l => String.mk l)

/-- `entry.content.and_then(|content| content.body.map(|body| ...))`: the
outer `Option` models a panic inside the closure, the inner `Option` is the
embed description (absent when the entry has no content or no body). -/
def renderDescription : Option FeedContentM → Option (Option String)
  | none => some none
  | some c =>
    match c.body with
    | none => some none
    | some body => (transformBody body).map (fun d => some d)

/-! ### Posting one entry -/

/-- Destination of a feed: the channel to post to and the optional role to
mention. -/
structure FeedTarget where
  channel : Nat
  roleId : Option Nat
  deriving DecidableEq, Repr

/-- One announcement post: channel, content (role mention or empty) and
embed. -/
structure AnnouncementPost where
  channel : Nat
  content : String
  embed : EmbedM
  deriving DecidableEq, Repr

/-- The author-name separator of the announcement embed. -/
def authorSep : String := ", "

/-- Renders one qualifying entry into its announcement post
(lines 174-220 of rss_announcements.rs); `none` models the body-transform
panic. -/
def renderAnnouncement (target : FeedTarget) (entry : FeedEntryM)
    (postDate : Int) : Option AnnouncementPost :=
  (renderDescription entry.content).map (fun description =>
    { channel := target.channel
      content :=
        match target.roleId with
        | some id => "<@&" ++ toString id ++ ">"
        | none => ""
      embed :=
        { author := some { name := String.intercalate authorSep entry.authors
                           iconUrl := none }
          color := some 15844367
          description := description
          title := entry.title
          url := entry.links.head?
          fields := []
          timestamp := some postDate
          image := none
          kind := "rich" } })

/-! ### One poll of one feed -/

/-- The per-entry filter (lines 152-163): keep an entry iff it has an
`updated` date strictly greater than the previously stored watermark. -/
def filterNew (entries : List FeedEntryM) (dbTime : Int) : List (FeedEntryM × Int) :=
  entries.filterMap (fun entry =>
    match entry.updated with
    | some date => if date > dbTime then some (entry, date) else none
    | none => none)

/-- Result of one feed poll / one sweep: finished normally, aborted with an
`RssError` (the `?` operator), or panicked. -/
inductive PollResult where
  | ok
  | err (e : RssError)
  | panicked
  deriving DecidableEq, Repr

/-- Posts the qualifying entries in order; a panic in some entry's render
stops the loop. -/
def postAll (target : FeedTarget) :
    List (FeedEntryM × Int) → List AnnouncementPost × PollResult
  | [] => ([], .ok)
  | (entry, postDate) :: rest =>
    match renderAnnouncement target entry postDate with
    | none => ([], .panicked)
    | some p => (p :: (postAll target rest).1, (postAll target rest).2)

/-- Database state, emitted posts and result of one feed poll. -/
structure PollOutcome where
  db : FeedDb
  posts : List AnnouncementPost
  result : PollResult
  deriving DecidableEq, Repr

/-- One poll of one already-fetched feed (lines 74-224 of
rss_announcements.rs).  `now` is `Utc::now().timestamp_millis()`.  A missing
feed-level `updated` is a `Read` error.  First encounter inserts `now` as
the watermark and emits nothing; a subsequent encounter updates the
watermark to `now` unconditionally, short-circuits when the stored time
equals the feed's `updated`, and otherwise posts the filtered entries. -/
def pollFeed (now : Int) (db : FeedDb) (target : FeedTarget) (feed : FeedM) :
    PollOutcome :=
  match feed.updated with
  | none => { db := db, posts := [], result := .err .read }
  | some updatedTime =>
    match lookupFeed db feed.id with
    | none =>
      { db := insertFeed db feed.id now, posts := [], result := .ok }
    | some dbTime =>
      let db1 := updateFeed db feed.id now
      if dbTime = updatedTime then
        { db := db1, posts := [], result := .ok }
      else
        { db := db1
          posts := (postAll target (filterNew feed.entries dbTime)).1
          result := (postAll target (filterNew feed.entries dbTime)).2 }

/-! ### The sweep over all configured feeds and the event dispatch loop -/

/-- One configured feed in a sweep: its destination and the result the
fetch-and-parse step returned for it this cycle. -/
structure FeedInput where
  channel : Nat
  roleId : Option Nat
  fetchResult : Except RssError FeedM
  deriving Repr

/-- One sweep of the poll loop (lines 58-225): a `Fetch` or `Read` error
from the fetch step is logged and the loop continues with the next feed;
any error or panic arising after a successful fetch propagates through `?`
and aborts the sweep (and with it `handle_announcements`). -/
def sweepFeeds (now : Int) (db : FeedDb) :
    List FeedInput → FeedDb × List AnnouncementPost × PollResult
  | [] => (db, [], .ok)
  | f :: rest =>
    match f.fetchResult with
    | .error .fetch => sweepFeeds now db rest
    | .error .read => sweepFeeds now db rest
    | .error e => (db, [], .err e)
    | .ok feed =>
      let out := pollFeed now db { channel := f.channel, roleId := f.roleId } feed
      match out.result with
      | .ok =>
        let (db2, posts, r) := sweepFeeds now out.db rest
        (db2, out.posts ++ posts, r)
      | r => (out.db, out.posts, r)

/-- `EventError` (src/error/event.rs). -/
inductive EventErrorM where
  | reactionError
  deriving DecidableEq, Repr

/-- The event dispatch loop of `main` (src/main.rs lines 235-251): each
event's handler is spawned and immediately awaited, and its error is
propagated with `?`, so the loop stops at the first failing handler.
Returns how many events were handed to a handler and the error that ended
the loop, if any. -/
def runEventLoop : List (Except EventErrorM Unit) → Nat × Option EventErrorM
  | [] => (0, none)
  | .ok _ :: rest =>
    let (n, e) := runEventLoop rest
    (n + 1, e)
  | .error e :: _ => (1, some e)

/-! ## Concurrent execution of two reaction handlers

The dispatch loop hands each event to its own task; the `await` points of
`reaction_add` split one handler run into atomic phases: the ledger SELECT,
the HTTP create, and the ledger INSERT.  Interleaving two handler tasks at
those phases embeds the concurrent behaviour of the source. -/

/-- Progress of one handler task through its atomic phases. -/
inductive TaskPhase where
  | start
  | readDone (found : Option Nat)
  | createDone
  | finished (o : Outcome)
  deriving DecidableEq, Repr

/-- One in-flight `reaction_add` task: its event, the message the fetch
returned, the id the Outbound API will assign to its create, and its phase. -/
structure ConcTask where
  added : ReactionAddEvent
  message : MessageM
  newPostId : Nat
  phase : TaskPhase
  deriving DecidableEq, Repr

/-- State shared by all tasks: the starboard table, the ids of the HTTP
creates issued so far (in order), and the number of HTTP updates issued. -/
structure ConcState where
  ledger : Ledger
  createdPosts : List Nat
  updateCalls : Nat
  deriving DecidableEq, Repr

/-- One atomic step of one task, following `reaction_add` exactly: the
SELECT, then the branch decision with the HTTP update or create, then the
INSERT.  The INSERT of a message_id that is already present fails
(modelled from the spec: `starboard(message_id TEXT PRIMARY KEY, ...)` —
the migration DDL itself is not under src/). -/
def concStep (config : ApplicationConfig) (t : ConcTask) (g : ConcState) :
    ConcTask × ConcState :=
  match t.phase with
  | .start =>
    if guildAccepted config t.added then
      ({ t with phase := .readDone (lookupStarboard g.ledger t.added.messageId) }, g)
    else
      ({ t with phase := .finished .ignored }, g)
  | .readDone (some _) =>
    match createStarboardMessage t.message with
    | none => ({ t with phase := .finished .panicked }, g)
    | some _ =>
      ({ t with phase := .finished .updated },
       { g with updateCalls := g.updateCalls + 1 })
  | .readDone none =>
    if maxReactionCount t.message < config.reactionRequirement then
      ({ t with phase := .finished .belowThreshold }, g)
    else
      match createStarboardMessage t.message with
      | none => ({ t with phase := .finished .panicked }, g)
      | some _ =>
        ({ t with phase := .createDone },
         { g with createdPosts := g.createdPosts ++ [t.newPostId] })
  | .createDone =>
    if (lookupStarboard g.ledger t.added.messageId).isSome then
      ({ t with phase := .finished .insertConflict }, g)
    else
      ({ t with phase := .finished .created },
       { g with ledger := insertStarboard g.ledger t.added.messageId t.newPostId })
  | .finished _ => (t, g)

/-- Runs two tasks under a schedule: `true` steps the first task, `false`
the second. -/
def runSched (config : ApplicationConfig) :
    List Bool → ConcTask → ConcTask → ConcState → ConcTask × ConcTask × ConcState
  | [], t1, t2, g => (t1, t2, g)
  | true :: rest, t1, t2, g =>
    let (t1Next, gNext) := concStep config t1 g
    runSched config rest t1Next t2 gNext
  | false :: rest, t1, t2, g =>
    let (t2Next, gNext) := concStep config t2 g
    runSched config rest t1 t2Next gNext

/-! ## Concrete fixtures used by witnesses and counterexamples -/

/-- Threshold 3, starboard channel 50, no guild restriction. -/
def cfgThree : ApplicationConfig :=
  { reactionRequirement := 3, starboardChannelId := 50, serverId := none }

/-- Threshold 0 (a parseable configuration value for `REACTION_REQUIREMENT`). -/
def cfgZero : ApplicationConfig :=
  { reactionRequirement := 0, starboardChannelId := 50, serverId := none }

/-- Threshold 1. -/
def cfgOne : ApplicationConfig :=
  { reactionRequirement := 1, starboardChannelId := 50, serverId := none }

/-- A reaction event for message 7 in channel 3, no guild. -/
def evSeven : ReactionAddEvent := { messageId := 7, channelId := 3, guildId := none }

/-- A message author. -/
def authorA : AuthorM := { id := 1, name := "alice", avatar := none, discriminator := 7 }

/-- Message 7 as fetched with all reactions meanwhile removed. -/
def msgNoReactions : MessageM :=
  { id := 7, channelId := 3, guildId := none, author := authorA, content := "hi",
    timestamp := 0, reactions := [], attachments := [] }

/-- Message 7 as fetched with one emoji at count 2. -/
def msgTwo : MessageM :=
  { msgNoReactions with reactions := [{ emoji := .unicode "star", count := 2 }] }

/-- Message 7 as fetched with one emoji at count 3. -/
def msgThree : MessageM :=
  { msgNoReactions with reactions := [{ emoji := .unicode "star", count := 3 }] }

/-! ## Helper lemmas about the starboard ledger -/

lemma createStarboardMessage_isSome_of_ne (message : MessageM)
    (h : message.reactions ≠ []) : (createStarboardMessage message).isSome := by
  rcases hr : message.reactions with _ | ⟨r, rs⟩
  · exact absurd hr h
  · simp [createStarboardMessage, hr]

lemma lookupStarboard_append_some (db : Ledger) (rows : Ledger) (k v : Nat)
    (h : lookupStarboard db k = some v) :
    lookupStarboard (db ++ rows) k = some v := by
  induction db with
  | nil => simp [lookupStarboard] at h
  | cons row rest ih =>
    obtain ⟨m, s⟩ := row
    by_cases hm : m = k
    · rw [lookupStarboard] at h
      rw [List.cons_append, lookupStarboard]
      rw [if_pos hm] at h ⊢
      exact h
    · rw [lookupStarboard] at h
      rw [List.cons_append, lookupStarboard]
      rw [if_neg hm] at h ⊢
      exact ih h

lemma not_mem_keys_of_lookup_none (db : Ledger) (k : Nat)
    (h : lookupStarboard db k = none) : k ∉ db.map Prod.fst := by
  induction db with
  | nil => simp
  | cons row rest ih =>
    obtain ⟨m, s⟩ := row
    rw [lookupStarboard] at h
    by_cases hm : m = k
    · rw [if_pos hm] at h
      exact absurd h (by simp)
    · rw [if_neg hm] at h
      intro hmem
      rcases List.mem_cons.mp hmem with hmem | hmem
      · exact hm hmem.symm
      · exact ih h hmem

lemma keysNodup_insert (db : Ledger) (m s : Nat) (h : keysNodup db)
    (hnone : lookupStarboard db m = none) :
    keysNodup (insertStarboard db m s) := by
  have hm : m ∉ db.map Prod.fst := not_mem_keys_of_lookup_none db m hnone
  simp only [keysNodup, insertStarboard, List.map_append, List.map_cons, List.map_nil]
  rw [List.nodup_append]
  refine ⟨h, List.nodup_singleton m, ?_⟩
  intro a ha hb
  simp only [List.mem_singleton] at hb
  exact hm (hb ▸ ha)

/-- Case analysis of the ledger a handler run leaves behind: it is unchanged,
or the run observed no entry and appended exactly one row for its message. -/
lemma reaction_add_ledger_cases (config : ApplicationConfig) (added : ReactionAddEvent)
    (message : MessageM) (newPostId : Nat) (db : Ledger) :
    (reaction_add config added message newPostId db).ledger = db
    ∨ (lookupStarboard db added.messageId = none
       ∧ (reaction_add config added message newPostId db).ledger
           = insertStarboard db added.messageId newPostId) := by
  cases hg : guildAccepted config added with
  | false => left; simp [reaction_add, hg]
  | true =>
    cases hs : lookupStarboard db added.messageId with
    | none =>
      by_cases ht : maxReactionCount message < config.reactionRequirement
      · left; simp [reaction_add, hg, hs, ht]
      · cases hc : createStarboardMessage message with
        | none => left; simp [reaction_add, hg, hs, ht, hc]
        | some sm => right; exact ⟨rfl, by simp [reaction_add, hg, hs, ht, hc]⟩
    | some sid =>
      cases hc : createStarboardMessage message with
      | none => left; simp [reaction_add, hg, hs, hc]
      | some sm => left; simp [reaction_add, hg, hs, hc]

/-! ## C2 -/

/-- C2 (counterexample): with the parseable configuration threshold 0 and a
fetched message whose reaction list is empty, the no-entry branch satisfies
`max_count ≥ threshold` yet the handler panics in `create_starboard_message`
instead of creating a post and inserting a ledger row. -/
theorem c2_counterexample :
    lookupStarboard ([] : Ledger) evSeven.messageId = none
    ∧ cfgZero.reactionRequirement ≤ maxReactionCount msgNoReactions
    ∧ reaction_add cfgZero evSeven msgNoReactions 100 []
        = { trace := [], ledger := [], outcome := .panicked } := by
  decide

/-- C2 (amended): on the no-entry path, below the threshold the handler has
no side effect and outcome `belowThreshold`; at or above the threshold, when
the fetched message still has a reaction (automatic whenever the threshold is
at least 1), it issues the HTTP create first and the ledger insert second,
with outcome `created`. -/
theorem c2_amended_theorem (config : ApplicationConfig) (added : ReactionAddEvent)
    (message : MessageM) (newPostId : Nat) (db : Ledger)
    (hg : guildAccepted config added = true)
    (hnone : lookupStarboard db added.messageId = none) :
    (maxReactionCount message < config.reactionRequirement →
      reaction_add config added message newPostId db
        = { trace := [], ledger := db, outcome := .belowThreshold })
    ∧ (config.reactionRequirement ≤ maxReactionCount message →
        message.reactions ≠ [] →
        ∃ sm, createStarboardMessage message = some sm ∧
          reaction_add config added message newPostId db
            = { trace := [.apiCreate config.starboardChannelId sm newPostId,
                          .dbInsert newPostId added.messageId]
                ledger := insertStarboard db added.messageId newPostId
                outcome := .created }) := by
  constructor
  · intro ht
    simp [reaction_add, hg, hnone, ht]
  · intro ht hr
    obtain ⟨sm, hsm⟩ :=
      Option.isSome_iff_exists.mp (createStarboardMessage_isSome_of_ne message hr)
    exact ⟨sm, hsm, by simp [reaction_add, hg, hnone, Nat.not_lt.mpr ht, hsm]⟩

/-- C2 (witness): threshold 3; max count 2 gives `belowThreshold` with no
side effect; max count 3 gives the create-then-insert trace and `created`. -/
theorem c2_witness :
    reaction_add cfgThree evSeven msgTwo 100 []
      = { trace := [], ledger := [], outcome := .belowThreshold }
    ∧ ∃ sm, createStarboardMessage msgThree = some sm ∧
        reaction_add cfgThree evSeven msgThree 100 []
          = { trace := [.apiCreate cfgThree.starboardChannelId sm 100,
                        .dbInsert 100 evSeven.messageId]
              ledger := insertStarboard [] evSeven.messageId 100
              outcome := .created } :=
  ⟨(c2_amended_theorem cfgThree evSeven msgTwo 100 [] (by decide) (by decide)).1 (by decide),
   (c2_amended_theorem cfgThree evSeven msgThree 100 [] (by decide) (by decide)).2
     (by decide) (by decide)⟩

/-! ## C3 -/

/-- C3 (counterexample): message 7 already has a ledger entry, but the
fetched message has an empty reaction list, so the handler panics and issues
no update at all: the claim's universal "issues an update and terminates"
fails. -/
theorem c3_counterexample :
    lookupStarboard [(7, 99)] evSeven.messageId = some 99
    ∧ reaction_add cfgThree evSeven msgNoReactions 111 [(7, 99)]
        = { trace := [], ledger := [(7, 99)], outcome := .panicked } := by
  decide

/-- C3 (amended): when an entry exists and the fetched message still has at
least one reaction, the handler issues exactly one update against the stored
starboard id, mutates nothing, never creates, and its behaviour is
independent of the configured threshold. -/
theorem c3_amended_theorem (config : ApplicationConfig) (added : ReactionAddEvent)
    (message : MessageM) (newPostId : Nat) (db : Ledger) (s : Nat)
    (hg : guildAccepted config added = true)
    (hs : lookupStarboard db added.messageId = some s)
    (hr : message.reactions ≠ []) :
    (∃ sm, createStarboardMessage message = some sm ∧
      reaction_add config added message newPostId db
        = { trace := [.apiUpdate config.starboardChannelId s sm]
            ledger := db
            outcome := .updated })
    ∧ ∀ t, reaction_add { config with reactionRequirement := t } added message newPostId db
          = reaction_add config added message newPostId db := by
  obtain ⟨sm, hsm⟩ :=
    Option.isSome_iff_exists.mp (createStarboardMessage_isSome_of_ne message hr)
  constructor
  · exact ⟨sm, hsm, by simp [reaction_add, hg, hs, hsm]⟩
  · intro t
    have hg2 : guildAccepted { config with reactionRequirement := t } added = true := hg
    simp [reaction_add, hg, hg2, hs, hsm]

/-- C3 (witness): with entry `(7, 99)` and a message at max count 3, the run
is exactly one update against post 99, and the same run with threshold 1000
is identical. -/
theorem c3_witness :
    (∃ sm, createStarboardMessage msgThree = some sm ∧
      reaction_add cfgThree evSeven msgThree 111 [(7, 99)]
        = { trace := [.apiUpdate cfgThree.starboardChannelId 99 sm]
            ledger := [(7, 99)]
            outcome := .updated })
    ∧ reaction_add { cfgThree with reactionRequirement := 1000 } evSeven msgThree 111 [(7, 99)]
        = reaction_add cfgThree evSeven msgThree 111 [(7, 99)] :=
  ⟨(c3_amended_theorem cfgThree evSeven msgThree 111 [(7, 99)] 99
      (by decide) (by decide) (by decide)).1,
   (c3_amended_theorem cfgThree evSeven msgThree 111 [(7, 99)] 99
      (by decide) (by decide) (by decide)).2 1000⟩

/-! ## C8 -/

/-- C8: every handler run preserves the ledger invariant: keys stay pairwise
distinct, every existing row survives unchanged (no reassignment), and when
an entry already exists for the event's message the ledger is left exactly
as it was (the existing-entry branch performs no ledger mutation). -/
theorem c8_theorem (config : ApplicationConfig) (added : ReactionAddEvent)
    (message : MessageM) (newPostId : Nat) (db : Ledger)
    (hnodup : keysNodup db) :
    keysNodup (reaction_add config added message newPostId db).ledger
    ∧ (∀ k v, lookupStarboard db k = some v →
        lookupStarboard (reaction_add config added message newPostId db).ledger k = some v)
    ∧ (∀ s, lookupStarboard db added.messageId = some s →
        (reaction_add config added message newPostId db).ledger = db) := by
  rcases reaction_add_ledger_cases config added message newPostId db with hcase | ⟨hnone, hcase⟩
  · rw [hcase]
    exact ⟨hnodup, fun k v h => h, fun s _ => rfl⟩
  · rw [hcase]
    refine ⟨keysNodup_insert db added.messageId newPostId hnodup hnone, ?_, ?_⟩
    · intro k v h
      exact lookupStarboard_append_some db _ k v h
    · intro s hsome
      rw [hnone] at hsome
      exact absurd hsome (by simp)

/-- C8 (witness): concrete run over the one-row ledger `[(5, 9)]`: keys stay
distinct and the unrelated row keeps its starboard id. -/
theorem c8_witness :
    keysNodup (reaction_add cfgThree evSeven msgThree 100 [(5, 9)]).ledger
    ∧ lookupStarboard (reaction_add cfgThree evSeven msgThree 100 [(5, 9)]).ledger 5 = some 9 :=
  ⟨(c8_theorem cfgThree evSeven msgThree 100 [(5, 9)] (by decide)).1,
   (c8_theorem cfgThree evSeven msgThree 100 [(5, 9)] (by decide)).2.1 5 9 (by decide)⟩

/-! ## C9 -/

/-- C9: `create_starboard_message` is partial: it returns a message exactly
when the reaction list is non-empty and panics on an empty one; and the
update path of `reaction_add` calls it unguarded, so a handler run that finds
an existing entry but an empty fetched reaction list panics before issuing
any update. -/
theorem c9_theorem :
    (∀ message : MessageM, message.reactions ≠ [] →
      (createStarboardMessage message).isSome)
    ∧ (∀ message : MessageM, message.reactions = [] →
        createStarboardMessage message = none)
    ∧ (∀ (config : ApplicationConfig) (added : ReactionAddEvent) (message : MessageM)
        (newPostId : Nat) (db : Ledger) (s : Nat),
        guildAccepted config added = true →
        lookupStarboard db added.messageId = some s →
        message.reactions = [] →
        (reaction_add config added message newPostId db).outcome = .panicked
        ∧ (reaction_add config added message newPostId db).trace = []) := by
  refine ⟨createStarboardMessage_isSome_of_ne, ?_, ?_⟩
  · intro message h
    simp [createStarboardMessage, h]
  · intro config added message newPostId db s hg hs hr
    have hc : createStarboardMessage message = none := by
      simp [createStarboardMessage, hr]
    constructor <;> simp [reaction_add, hg, hs, hc]

/-- C9 (witness): concrete instances of all three parts. -/
theorem c9_witness :
    (createStarboardMessage msgThree).isSome
    ∧ createStarboardMessage msgNoReactions = none
    ∧ (reaction_add cfgThree evSeven msgNoReactions 5 [(7, 99)]).outcome = .panicked :=
  ⟨c9_theorem.1 msgThree (by decide),
   c9_theorem.2.1 msgNoReactions rfl,
   (c9_theorem.2.2 cfgThree evSeven msgNoReactions 5 [(7, 99)] 99
     (by decide) (by decide) rfl).1⟩

/-! ## C1 -/

/-- First of two concurrent handler tasks for message 7. -/
def taskA : ConcTask :=
  { added := evSeven, message := msgThree, newPostId := 100, phase := .start }

/-- Second concurrent handler task for the same message 7. -/
def taskB : ConcTask :=
  { added := evSeven, message := msgThree, newPostId := 101, phase := .start }

/-- The racing interleaving: both tasks run their ledger SELECT before
either reaches its INSERT. -/
def racingSched : List Bool := [true, false, true, false, true, false]

/-- C1: under the interleaving where both tasks read the ledger before
either writes it, the code issues two HTTP creates (two aggregate posts) for
the one source message 7 — the read-then-decide-then-write sequence has no
per-message mutual exclusion.  The second INSERT then fails against the
primary key, leaving the loser in an error state after its create was
already posted. -/
theorem c1_race_two_creates :
    taskA.added.messageId = taskB.added.messageId
    ∧ runSched cfgOne racingSched taskA taskB
        { ledger := [], createdPosts := [], updateCalls := 0 }
      = ({ taskA with phase := .finished .created },
         { taskB with phase := .finished .insertConflict },
         { ledger := [(7, 100)], createdPosts := [100, 101], updateCalls := 0 }) := by
  decide

/-! ## Helper lemmas about the feed watermark table -/

lemma lookupFeed_append_right (db rows : FeedDb) (q : String)
    (h : lookupFeed db q = none) :
    lookupFeed (db ++ rows) q = lookupFeed rows q := by
  induction db with
  | nil => simp
  | cons row rest ih =>
    obtain ⟨i, v⟩ := row
    rw [lookupFeed] at h
    by_cases hiq : i = q
    · rw [if_pos hiq] at h
      exact absurd h (by simp)
    · rw [if_neg hiq] at h
      rw [List.cons_append, lookupFeed, if_neg hiq]
      exact ih h

lemma lookupFeed_insertFeed_self (db : FeedDb) (id : String) (v : Int)
    (h : lookupFeed db id = none) :
    lookupFeed (insertFeed db id v) id = some v := by
  rw [insertFeed, lookupFeed_append_right db _ id h, lookupFeed, if_pos rfl]

lemma updateFeed_cons (i : String) (w : Int) (rest : FeedDb) (id : String) (v : Int) :
    updateFeed ((i, w) :: rest) id v
      = (if i = id then (i, v) else (i, w)) :: updateFeed rest id v := by
  by_cases hiq : i = id
  · simp [updateFeed, hiq]
  · simp [updateFeed, hiq]

lemma lookupFeed_updateFeed_self (db : FeedDb) (id : String) (t v : Int)
    (h : lookupFeed db id = some t) :
    lookupFeed (updateFeed db id v) id = some v := by
  induction db with
  | nil => simp [lookupFeed] at h
  | cons row rest ih =>
    obtain ⟨i, w⟩ := row
    rw [lookupFeed] at h
    rw [updateFeed_cons]
    by_cases hiq : i = id
    · rw [if_pos hiq, lookupFeed, if_pos hiq]
    · rw [if_neg hiq] at h
      rw [if_neg hiq, lookupFeed, if_neg hiq]
      exact ih h

lemma lookupFeed_updateFeed_ne (db : FeedDb) (id : String) (v : Int) (k : String)
    (hk : k ≠ id) :
    lookupFeed (updateFeed db id v) k = lookupFeed db k := by
  induction db with
  | nil => rfl
  | cons row rest ih =>
    obtain ⟨i, w⟩ := row
    rw [updateFeed_cons]
    by_cases hiq : i = id
    · have hik : ¬ i = k := by
        rw [hiq]; exact fun hh => hk hh.symm
      rw [if_pos hiq, lookupFeed, if_neg hik, lookupFeed, if_neg hik]
      exact ih
    · rw [if_neg hiq]
      by_cases hik : i = k
      · rw [lookupFeed, if_pos hik, lookupFeed, if_pos hik]
      · rw [lookupFeed, if_neg hik, lookupFeed, if_neg hik]
        exact ih

lemma lookupFeed_insertFeed_ne (db : FeedDb) (id : String) (v : Int) (k : String)
    (hk : k ≠ id) :
    lookupFeed (insertFeed db id v) k = lookupFeed db k := by
  have hik : ¬ id = k := fun h => hk h.symm
  induction db with
  | nil =>
    rw [insertFeed, List.nil_append]
    simp only [lookupFeed, if_neg hik]
  | cons row rest ih =>
    obtain ⟨i, w⟩ := row
    rw [insertFeed, List.cons_append]
    by_cases hikk : i = k
    · rw [lookupFeed, if_pos hikk, lookupFeed, if_pos hikk]
    · rw [lookupFeed, if_neg hikk, lookupFeed, if_neg hikk]
      exact ih

/-- On the subsequent-encounter path the database after the poll is the
unconditional `UPDATE` to `now`, whatever the entry filtering and posting do. -/
lemma pollFeed_db_subsequent (now : Int) (db : FeedDb) (target : FeedTarget)
    (feed : FeedM) (u t : Int)
    (hu : feed.updated = some u) (ht : lookupFeed db feed.id = some t) :
    (pollFeed now db target feed).db = updateFeed db feed.id now := by
  by_cases h : t = u
  · simp [pollFeed, hu, ht, h]
  · simp [pollFeed, hu, ht, h]

/-! ## RSS fixtures -/

/-- An announcement destination: channel 9, no role mention. -/
def targetW : FeedTarget := { channel := 9, roleId := none }

/-- An entry older than the stored watermark 100. -/
def entryOld : FeedEntryM :=
  { id := "e0", title := some "old", authors := ["ann"],
    content := some { body := some "old body" }, links := [], updated := some 99 }

/-- An entry newer than the stored watermark 100. -/
def entryNew : FeedEntryM :=
  { id := "e1", title := some "hello", authors := ["ann"],
    content := some { body := some "text" }, links := ["https://example.org/1"],
    updated := some 101 }

/-- Feed `f` on its first poll: reported updated time 100, two entries. -/
def feedFirst : FeedM :=
  { id := "f", title := some "feed", updated := some 100,
    entries := [entryOld, entryNew] }

/-- Feed `f` on a subsequent poll: reported updated time 101, one new and one
old entry. -/
def feedSub : FeedM :=
  { id := "f", title := some "feed", updated := some 101,
    entries := [entryNew, entryOld] }

/-- Feed `f` unchanged: reported updated time 100 equal to the watermark. -/
def feedSame : FeedM :=
  { id := "f", title := some "feed", updated := some 100,
    entries := [entryNew] }

/-- A feed document without a feed-level `updated` timestamp. -/
def feedNoUpdated : FeedM :=
  { id := "a", title := none, updated := none, entries := [] }

/-- The watermark table holding 100 for feed `f`. -/
def dbSub : FeedDb := [("f", 100)]

/-! ## C4 -/

/-- C4 (counterexample): first poll of feed `f` whose reported `updated` is
100 at wall-clock time 999: no posts, but the watermark written is 999 — the
wall-clock time, not the feed's reported time, refuting the claim's
"watermark equals the feed's own reported updated timestamp". -/
theorem c4_counterexample :
    feedFirst.updated = some 100
    ∧ pollFeed 999 [] targetW feedFirst
        = { db := [("f", 999)], posts := [], result := .ok }
    ∧ lookupFeed (pollFeed 999 [] targetW feedFirst).db feedFirst.id ≠ some 100 := by
  decide

/-- C4 (amended): a first encounter emits no posts, succeeds, and records as
watermark the wall-clock time `now` of the poll (`Utc::now()` in the code),
not the feed's reported time. -/
theorem c4_amended_theorem (now u : Int) (db : FeedDb) (target : FeedTarget)
    (feed : FeedM)
    (hu : feed.updated = some u) (hnone : lookupFeed db feed.id = none) :
    pollFeed now db target feed
      = { db := insertFeed db feed.id now, posts := [], result := .ok }
    ∧ lookupFeed (pollFeed now db target feed).db feed.id = some now := by
  have hdb : (pollFeed now db target feed).db = insertFeed db feed.id now := by
    simp [pollFeed, hu, hnone]
  refine ⟨?_, ?_⟩
  · simp [pollFeed, hu, hnone]
  · rw [hdb]
    exact lookupFeed_insertFeed_self db feed.id now hnone

/-- C4 (witness): the amended first-encounter behaviour at a concrete poll. -/
theorem c4_witness :
    pollFeed 999 [] targetW feedFirst
      = { db := insertFeed [] feedFirst.id 999, posts := [], result := .ok } :=
  (c4_amended_theorem 999 100 [] targetW feedFirst rfl rfl).1

/-! ## C5 -/

/-- C5 (counterexample): subsequent poll of feed `f` (stored watermark 50,
feed-reported time 100) at wall-clock time 999 stores 999, not the feed's
reported 100 — the claim's "with the feed's own reported update time" fails. -/
theorem c5_counterexample :
    feedSame.updated = some 100
    ∧ (pollFeed 999 [("f", 50)] targetW feedSame).db = [("f", 999)]
    ∧ lookupFeed (pollFeed 999 [("f", 50)] targetW feedSame).db feedSame.id ≠ some 100 := by
  decide

/-- C5 (amended): on every subsequent poll the watermark row is overwritten
unconditionally with the wall-clock `now` of the poll, other feeds' rows are
untouched, and a later poll at `now2 ≥ now` overwrites it with `now2`, so
across polls with non-decreasing wall-clock times the stored value is
monotonically non-decreasing and equals the latest poll's wall-clock time. -/
theorem c5_amended_theorem (now : Int) (db : FeedDb) (target : FeedTarget)
    (feed : FeedM) (u t : Int)
    (hu : feed.updated = some u) (ht : lookupFeed db feed.id = some t) :
    lookupFeed (pollFeed now db target feed).db feed.id = some now
    ∧ (∀ k, k ≠ feed.id →
        lookupFeed (pollFeed now db target feed).db k = lookupFeed db k)
    ∧ (∀ (now2 : Int) (feed2 : FeedM) (u2 : Int),
        feed2.id = feed.id → feed2.updated = some u2 → now ≤ now2 →
        lookupFeed (pollFeed now2 (pollFeed now db target feed).db target feed2).db feed.id
          = some now2) := by
  have hdb := pollFeed_db_subsequent now db target feed u t hu ht
  refine ⟨?_, ?_, ?_⟩
  · rw [hdb]
    exact lookupFeed_updateFeed_self db feed.id t now ht
  · intro k hk
    rw [hdb]
    exact lookupFeed_updateFeed_ne db feed.id now k hk
  · intro now2 feed2 u2 hid hu2 _
    have h1 : lookupFeed (pollFeed now db target feed).db feed2.id = some now := by
      rw [hid, hdb]
      exact lookupFeed_updateFeed_self db feed.id t now ht
    have hdb2 := pollFeed_db_subsequent now2 (pollFeed now db target feed).db target feed2
      u2 now hu2 h1
    rw [hdb2, ← hid]
    exact lookupFeed_updateFeed_self _ feed2.id now now2 h1

/-- C5 (witness): two chained subsequent polls at wall-clock 500 then 600
store 500 then 600 for feed `f`. -/
theorem c5_witness :
    lookupFeed (pollFeed 500 [("f", 50)] targetW feedSame).db feedSame.id = some 500
    ∧ lookupFeed
        (pollFeed 600 (pollFeed 500 [("f", 50)] targetW feedSame).db targetW feedSame).db
        feedSame.id = some 600 :=
  ⟨(c5_amended_theorem 500 [("f", 50)] targetW feedSame 100 50 rfl (by decide)).1,
   (c5_amended_theorem 500 [("f", 50)] targetW feedSame 100 50 rfl (by decide)).2.2
     600 feedSame 100 rfl rfl (by decide)⟩

/-! ## C6 -/

lemma postAll_all_isSome (target : FeedTarget) (l : List (FeedEntryM × Int))
    (h : ∀ x ∈ l, (renderAnnouncement target x.1 x.2).isSome) :
    postAll target l
      = (l.filterMap (fun x => renderAnnouncement target x.1 x.2), .ok) := by
  induction l with
  | nil => rfl
  | cons x rest ih =>
    obtain ⟨entry, postDate⟩ := x
    have hx := h _ (List.mem_cons_self _ _)
    obtain ⟨p, hp⟩ := Option.isSome_iff_exists.mp hx
    have hrest := ih (fun y hy => h y (List.mem_cons_of_mem _ hy))
    simp [postAll, hp, hrest, List.filterMap_cons]

lemma filterNew_mem (entries : List FeedEntryM) (dbTime : Int)
    (entry : FeedEntryM) (date : Int) :
    (entry, date) ∈ filterNew entries dbTime
      ↔ entry ∈ entries ∧ entry.updated = some date ∧ dbTime < date := by
  rw [filterNew, List.mem_filterMap]
  constructor
  · rintro ⟨a, ha, hfa⟩
    rcases hau : a.updated with _ | d
    · simp [hau] at hfa
    · simp only [hau] at hfa
      by_cases hgt : d > dbTime
      · rw [if_pos hgt] at hfa
        have hpair : a = entry ∧ d = date := by
          simpa using hfa
        obtain ⟨h1, h2⟩ := hpair
        subst h1
        subst h2
        exact ⟨ha, hau, hgt⟩
      · rw [if_neg hgt] at hfa
        simp at hfa
  · rintro ⟨ha, hau, hgt⟩
    exact ⟨entry, ha, by simp [hau, hgt]⟩

/-- C6: on a subsequent poll, if the feed's reported time equals the stored
watermark nothing is emitted (fast path); otherwise, when every qualifying
entry renders, the posts are exactly the renders of the filtered entries;
and an entry qualifies precisely when it carries an `updated` date strictly
greater than the previously stored watermark (captured before the
overwrite). -/
theorem c6_theorem (now : Int) (db : FeedDb) (target : FeedTarget) (feed : FeedM)
    (u t : Int) (hu : feed.updated = some u) (ht : lookupFeed db feed.id = some t) :
    (u = t →
      pollFeed now db target feed
        = { db := updateFeed db feed.id now, posts := [], result := .ok })
    ∧ (u ≠ t →
        (∀ x ∈ filterNew feed.entries t, (renderAnnouncement target x.1 x.2).isSome) →
        (pollFeed now db target feed).posts
          = (filterNew feed.entries t).filterMap
              (fun x => renderAnnouncement target x.1 x.2)
          ∧ (pollFeed now db target feed).result = .ok)
    ∧ (∀ (entry : FeedEntryM) (date : Int),
        (entry, date) ∈ filterNew feed.entries t
          ↔ entry ∈ feed.entries ∧ entry.updated = some date ∧ t < date) := by
  refine ⟨?_, ?_, fun entry date => filterNew_mem feed.entries t entry date⟩
  · intro hut
    simp [pollFeed, hu, ht, hut]
  · intro hut hall
    have hpost := postAll_all_isSome target (filterNew feed.entries t) hall
    have hne : ¬ (t = u) := fun h => hut h.symm
    constructor <;> simp [pollFeed, hu, ht, hne, hpost]

/-- C6 (witness): watermark 100, feed reported time 101, entries at 101 and
99: the posts are exactly the rendered 101-entry. -/
theorem c6_witness :
    (pollFeed 999 dbSub targetW feedSub).posts
      = (filterNew feedSub.entries 100).filterMap
          (fun x => renderAnnouncement targetW x.1 x.2)
    ∧ (pollFeed 999 dbSub targetW feedSub).result = .ok :=
  (c6_theorem 999 dbSub targetW feedSub 101 100 rfl (by decide)).2.1
    (by decide) (by decide)

/-! ## C7 -/

/-- Feed `a` fetched fine but carrying no feed-level `updated` field. -/
def inputA : FeedInput :=
  { channel := 9, roleId := none, fetchResult := .ok feedNoUpdated }

/-- Healthy feed `f` with one new entry behind watermark 100. -/
def inputB : FeedInput :=
  { channel := 9, roleId := none, fetchResult := .ok feedSub }

/-- A feed whose fetch failed. -/
def inputFetchErr : FeedInput :=
  { channel := 9, roleId := none, fetchResult := .error .fetch }

/-- C7 (counterexample): feed `a` lacks its `updated` field, a per-feed
condition the claim says is isolated — but the sweep aborts with a `Read`
error and healthy feed `f` (which alone would post one entry) posts nothing;
and the event dispatch loop stops at the first failing handler, leaving a
later event unprocessed. -/
theorem c7_counterexample :
    sweepFeeds 999 dbSub [inputA, inputB] = (dbSub, [], .err .read)
    ∧ (sweepFeeds 999 dbSub [inputB]).2.1 ≠ []
    ∧ runEventLoop [.error .reactionError, .ok ()] = (1, some .reactionError) := by
  decide

/-- C7 (amended): only fetch and parse failures are isolated (the sweep
skips that feed and continues unchanged); any error after a successful fetch
— missing `updated`, database failure, post failure — aborts the sweep,
dropping all remaining feeds, and a failing event handler terminates the
dispatch loop at that event. -/
theorem c7_amended_theorem :
    (∀ (now : Int) (db : FeedDb) (f : FeedInput) (rest : List FeedInput),
      f.fetchResult = .error .fetch ∨ f.fetchResult = .error .read →
      sweepFeeds now db (f :: rest) = sweepFeeds now db rest)
    ∧ (∀ (now : Int) (db : FeedDb) (f : FeedInput) (feed : FeedM)
        (rest : List FeedInput) (e : RssError),
        f.fetchResult = .ok feed →
        (pollFeed now db { channel := f.channel, roleId := f.roleId } feed).result = .err e →
        sweepFeeds now db (f :: rest)
          = ((pollFeed now db { channel := f.channel, roleId := f.roleId } feed).db,
             (pollFeed now db { channel := f.channel, roleId := f.roleId } feed).posts,
             .err e))
    ∧ (∀ (e : EventErrorM) (rest : List (Except EventErrorM Unit)),
        runEventLoop (.error e :: rest) = (1, some e)) := by
  refine ⟨?_, ?_, fun e rest => rfl⟩
  · rintro now db f rest (h | h) <;> simp [sweepFeeds, h]
  · intro now db f feed rest e hf he
    simp [sweepFeeds, hf, he]

/-- C7 (witness): a fetch failure is skipped without affecting the sweep of
the remaining feeds; a failing handler ends the dispatch loop. -/
theorem c7_witness :
    sweepFeeds 999 dbSub [inputFetchErr, inputB] = sweepFeeds 999 dbSub [inputB]
    ∧ runEventLoop [.error .reactionError] = (1, some .reactionError) :=
  ⟨c7_amended_theorem.1 999 dbSub inputFetchErr [inputB] (Or.inl rfl),
   c7_amended_theorem.2.2 .reactionError []⟩

/-! ## C10 -/

lemma utf8Len_cons (c : Char) (cs : List Char) :
    utf8Len (c :: cs) = c.utf8Size + utf8Len cs := by
  simp [utf8Len]

lemma truncAux_of_le (l : List Char) : ∀ n, utf8Len l ≤ n → truncAux n l = some l := by
  induction l with
  | nil =>
    intro n _
    simp [truncAux]
  | cons c cs ih =>
    intro n h
    rw [utf8Len_cons] at h
    cases n with
    | zero =>
      have := Char.utf8Size_pos c
      omega
    | succ m =>
      have hle : c.utf8Size ≤ m + 1 := by omega
      simp only [truncAux, if_pos hle]
      rw [ih (m + 1 - c.utf8Size) (by omega)]
      rfl

lemma truncAux_isSome_iff (l : List Char) : ∀ n : Nat,
    (truncAux n l).isSome
      ↔ utf8Len l ≤ n ∨ ∃ pre suf, l = pre ++ suf ∧ utf8Len pre = n := by
  induction l with
  | nil =>
    intro n
    simp [truncAux, utf8Len]
  | cons c cs ih =>
    intro n
    cases n with
    | zero =>
      constructor
      · intro _
        exact Or.inr ⟨[], c :: cs, rfl, rfl⟩
      · intro _
        simp [truncAux]
    | succ m =>
      by_cases hle : c.utf8Size ≤ m + 1
      · have hred : (truncAux (m + 1) (c :: cs)).isSome
            ↔ (truncAux (m + 1 - c.utf8Size) cs).isSome := by
          simp only [truncAux, if_pos hle]
          cases htr : truncAux (m + 1 - c.utf8Size) cs <;> simp
        rw [hred, ih]
        constructor
        · rintro (hlen | ⟨pre, suf, heq, hlen⟩)
          · left
            rw [utf8Len_cons]
            omega
          · right
            exact ⟨c :: pre, suf, by rw [List.cons_append, heq],
              by rw [utf8Len_cons]; omega⟩
        · rintro (hlen | ⟨pre, suf, heq, hlen⟩)
          · left
            rw [utf8Len_cons] at hlen
            omega
          · cases pre with
            | nil =>
              rw [show utf8Len [] = 0 from rfl] at hlen
              omega
            | cons p ps =>
              rw [List.cons_append] at heq
              injection heq with h1 h2
              subst h1
              right
              refine ⟨ps, suf, h2, ?_⟩
              rw [utf8Len_cons] at hlen
              omega
      · have hnone : truncAux (m + 1) (c :: cs) = none := by
          simp only [truncAux, if_neg hle]
        rw [hnone]
        constructor
        · intro h
          simp at h
        · rintro (hlen | ⟨pre, suf, heq, hlen⟩)
          · exfalso
            rw [utf8Len_cons] at hlen
            omega
          · exfalso
            cases pre with
            | nil =>
              rw [show utf8Len [] = 0 from rfl] at hlen
              omega
            | cons p ps =>
              rw [List.cons_append] at heq
              injection heq with h1 h2
              subst h1
              rw [utf8Len_cons] at hlen
              omega

/-- A filtered body whose 4096-byte boundary splits the final two-byte
character: 4095 ASCII characters and then one `é`. -/
def bigBody : String := String.mk (List.replicate 4095 'a' ++ ['é'])

/-- A short body containing the stripped markup. -/
def shortBody : String := "a&nbsp;<p>b</p>c"

lemma replaceAllAux_of_head_notin (p : Char) (ps repl : List Char) :
    ∀ (n : Nat) (l : List Char), (∀ c ∈ l, c ≠ p) →
      replaceAllAux (p :: ps) repl n l = l := by
  intro n
  induction n with
  | zero =>
    intro l _
    cases l <;> rfl
  | succ m ih =>
    intro l h
    cases l with
    | nil => rfl
    | cons c cs =>
      have hcp : ¬ (p :: ps).isPrefixOf (c :: cs) = true := by
        intro hpre
        simp [List.isPrefixOf] at hpre
        exact (h c (List.mem_cons_self c cs)) hpre.1.symm
      have hcond : ¬ ((p :: ps) ≠ [] ∧ (p :: ps).isPrefixOf (c :: cs) = true) :=
        fun hh => hcp hh.2
      simp only [replaceAllAux, ne_eq, if_neg hcond]
      rw [ih cs (fun x hx => h x (List.mem_cons_of_mem c hx))]

lemma truncAux_replicate_one (c : Char) (hc : c.utf8Size = 1) (l : List Char)
    (n : Nat) :
    ∀ k, truncAux (k + n) (List.replicate k c ++ l)
      = (truncAux n l).map (fun t => List.replicate k c ++ t) := by
  intro k
  induction k with
  | zero =>
    simp only [List.replicate, List.nil_append, Nat.zero_add]
    cases htr : truncAux n l <;> simp [htr]
  | succ m ih =>
    have harith : m + 1 + n = (m + n) + 1 := by omega
    rw [harith, List.replicate_succ, List.cons_append]
    simp only [truncAux, hc]
    rw [if_pos (by omega : 1 ≤ m + n + 1)]
    simp only [Nat.add_sub_cancel]
    rw [ih]
    cases htr : truncAux n l <;> simp [htr]

/-- C10 (counterexample): the transformation is not total — on `bigBody`
the byte-wise `truncate(4096)` lands inside the trailing two-byte character
and panics. -/
theorem c10_counterexample : transformBody bigBody = none := by
  have hdata : bigBody.data = List.replicate 4095 'a' ++ ['é'] := rfl
  have hmem : ∀ c ∈ bigBody.data, c = 'a' ∨ c = 'é' := by
    intro c hc
    rw [hdata] at hc
    rcases List.mem_append.mp hc with h | h
    · exact Or.inl (List.eq_of_mem_replicate h)
    · exact Or.inr (List.mem_singleton.mp h)
  have hamp : ∀ c ∈ bigBody.data, c ≠ '&' := by
    intro c hc
    rcases hmem c hc with rfl | rfl <;> decide
  have hlt : ∀ c ∈ bigBody.data, c ≠ '<' := by
    intro c hc
    rcases hmem c hc with rfl | rfl <;> decide
  have h1 : replaceAll nbspPat [] bigBody.data = bigBody.data := by
    rw [replaceAll, show nbspPat = '&' :: "nbsp;".data from by decide]
    exact replaceAllAux_of_head_notin '&' _ [] _ bigBody.data hamp
  have h2 : replaceAll pOpenPat [] bigBody.data = bigBody.data := by
    rw [replaceAll, show pOpenPat = '<' :: "p>".data from by decide]
    exact replaceAllAux_of_head_notin '<' _ [] _ bigBody.data hlt
  have h3 : replaceAll pClosePat newlineRepl bigBody.data = bigBody.data := by
    rw [replaceAll, show pClosePat = '<' :: "/p>".data from by decide]
    exact replaceAllAux_of_head_notin '<' _ _ _ bigBody.data hlt
  have hfil : filteredBody bigBody = bigBody.data := by
    rw [filteredBody, h1, h2, h3]
  have htr : truncAux 4096 (List.replicate 4095 'a' ++ ['é']) = none := by
    rw [show (4096 : Nat) = 4095 + 1 from by norm_num,
      truncAux_replicate_one 'a' (by decide) ['é'] 1 4095,
      show truncAux 1 ['é'] = none from by decide]
    rfl
  rw [transformBody, hfil, hdata, htr]
  rfl

/-- C10 (amended): the posted description of an entry with a body is the
body with `&nbsp;` and `<p>` removed and `</p>` replaced by a newline, then
byte-truncated at 4096; the truncation is the identity whenever the filtered
body fits in 4096 bytes, and it succeeds exactly when the filtered body fits
or has a character boundary at byte 4096 — otherwise it panics. -/
theorem c10_amended_theorem (body : String) :
    renderDescription (some { body := some body })
      = (transformBody body).map (fun d => some d)
    ∧ (utf8Len (filteredBody body) ≤ 4096 →
        transformBody body = some (String.mk (filteredBody body)))
    ∧ ((transformBody body).isSome
        ↔ utf8Len (filteredBody body) ≤ 4096
          ∨ ∃ pre suf, filteredBody body = pre ++ suf ∧ utf8Len pre = 4096) := by
  refine ⟨rfl, ?_, ?_⟩
  · intro h
    rw [transformBody, truncAux_of_le _ _ h]
    rfl
  · rw [transformBody]
    have hmap : ((truncAux 4096 (filteredBody body)).map (fun l => String.mk l)).isSome
        ↔ (truncAux 4096 (filteredBody body)).isSome := by
      cases htr : truncAux 4096 (filteredBody body) <;> simp
    rw [hmap, truncAux_isSome_iff]

/-- C10 (witness): a short body with all three markup sequences is filtered
and kept whole. -/
theorem c10_witness :
    transformBody shortBody = some (String.mk (filteredBody shortBody)) :=
  (c10_amended_theorem shortBody).2.1 (by decide)

end ChessBot
